import Mathlib

/- Verification development for the asymmetric-nfc protocol engine.

   This file gives a shallow embedding of the repository's core: the status
   decoder, the progress mapper, the frame extractor, the change-coalescing
   emitter, the scan-session and single-read controllers, and the power-cycle
   supervisor, together with theorems settling the specification claims.

   Text is modelled as a list of character codes (Nat).  The character-class
   predicates model the ASCII range, which covers every frame of the chip's
   textual protocol. -/

/-- Character codes of a string literal. -/
def codes (s : String) : List Nat := s.data.map Char.toNat

/-- ASCII whitespace, the relevant part of the regex class backslash-s and of
String.prototype.trim. -/
def isWS (c : Nat) : Bool := decide (c = 32 ∨ c = 9 ∨ c = 10 ∨ c = 13 ∨ c = 11 ∨ c = 12)

/-- ASCII lower-casing, modelling the case folding of a case-insensitive regex. -/
def lowC (c : Nat) : Nat := if 65 ≤ c ∧ c ≤ 90 then c + 32 else c

/-- Decimal digit, the regex class backslash-d. -/
def isDigitC (c : Nat) : Bool := decide (48 ≤ c ∧ c ≤ 57)

/-- Word character, the regex class backslash-w: letters, digits, underscore. -/
def isWordC (c : Nat) : Bool :=
  isDigitC c || decide (65 ≤ c ∧ c ≤ 90) || decide (97 ≤ c ∧ c ≤ 122) || decide (c = 95)

/-- Hexadecimal digit, the character class 0-9 A-F a-f. -/
def isHexC (c : Nat) : Bool :=
  isDigitC c || decide (65 ≤ c ∧ c ≤ 70) || decide (97 ≤ c ∧ c ≤ 102)

/-- String.prototype.trim: drop whitespace from both ends. -/
def trim (l : List Nat) : List Nat :=
  ((l.dropWhile isWS).reverse.dropWhile isWS).reverse

/-- Case-insensitive literal-pattern test at the head of the text.  The
pattern is given in lower case. -/
def startsWithCI : List Nat → List Nat → Bool
  | _, [] => true
  | [], _ :: _ => false
  | c :: cs, p :: ps => (lowC c == p) && startsWithCI cs ps

/-- Case-insensitive substring test, modelling an unanchored regex literal. -/
def containsCI : List Nat → List Nat → Bool
  | [], p => p.isEmpty
  | c :: cs, p => startsWithCI (c :: cs) p || containsCI cs p

/-- Drop a case-insensitive literal pattern from the head of the text,
returning the remainder on success. -/
def dropPrefCI : List Nat → List Nat → Option (List Nat)
  | s, [] => some s
  | [], _ :: _ => none
  | c :: cs, p :: ps => if lowC c == p then dropPrefCI cs ps else none

/-- The character before the match position is compatible with a word
boundary (none at the start of the text). -/
def noWordB : Option Nat → Bool
  | none => true
  | some c => !isWordC c

/-- The text ahead is compatible with a word boundary. -/
def headBoundary : List Nat → Bool
  | [] => true
  | c :: _ => !isWordC c

/-- Word-bounded case-insensitive literal match at the current position,
for patterns whose first and last characters are word characters. -/
def wordHereCI (prev : Option Nat) (s pat : List Nat) : Bool :=
  noWordB prev &&
    (match dropPrefCI s pat with
     | some rest => headBoundary rest
     | none => false)

/-- Scan for a word-bounded case-insensitive literal, tracking the previous
character. -/
def containsWordCIAux (prev : Option Nat) : List Nat → List Nat → Bool
  | [], pat => wordHereCI prev [] pat
  | c :: cs, pat => wordHereCI prev (c :: cs) pat || containsWordCIAux (some c) cs pat

/-- Word-bounded case-insensitive literal search over the whole text. -/
def containsWordCI (s pat : List Nat) : Bool := containsWordCIAux none s pat

/-- Skip a run of whitespace, the regex fragment backslash-s star. -/
def skipWS (l : List Nat) : List Nat := l.dropWhile isWS

/-- Numeric value of a run of decimal digit codes. -/
def digitsToNat (l : List Nat) : Nat := l.foldl (fun a d => a * 10 + (d - 48)) 0

/-- Match the canonical work frame at the current position: the letter R,
optional spaces, an optional colon, optional spaces, the letter i, optional
spaces, an equals sign, optional spaces, then one or more digits whose value
is returned. -/
def riHere : List Nat → Option Nat
  | [] => none
  | c :: rest =>
    if lowC c == 114 then
      let r1 := skipWS rest
      let r2 := match r1 with
        | 58 :: t => skipWS t
        | _ => r1
      match r2 with
      | i :: r3 =>
        if lowC i == 105 then
          let r4 := skipWS r3
          match r4 with
          | 61 :: r5 =>
            let ds := (skipWS r5).takeWhile isDigitC
            if ds.isEmpty then none else some (digitsToNat ds)
          | _ => none
        else none
      | [] => none
    else none

/-- Leftmost match of the canonical work-frame pattern. -/
def riSearch : List Nat → Option Nat
  | [] => none
  | c :: cs =>
    match riHere (c :: cs) with
    | some n => some n
    | none => riSearch cs

/-- Anchored test for the looser fallback: the text starts with the letter R
followed by a word boundary. -/
def startsRB : List Nat → Bool
  | [] => false
  | c :: rest => (lowC c == 114) && headBoundary rest

/-- First maximal run of digits anywhere in the text. -/
def firstDigitRun : List Nat → Option (List Nat)
  | [] => none
  | c :: cs => if isDigitC c then some (c :: cs.takeWhile isDigitC) else firstDigitRun cs

/-- Match the R-done frame at the current position: a word boundary, the
letter R, optional spaces, an optional colon, optional spaces, the literal
word done, then a word boundary. -/
def rdoneHere (prev : Option Nat) : List Nat → Bool
  | [] => false
  | c :: rest =>
    noWordB prev && (lowC c == 114) &&
      (let r1 := skipWS rest
       let r2 := match r1 with
         | 58 :: t => skipWS t
         | _ => r1
       match dropPrefCI r2 (codes ("done")) with
       | some rest2 => headBoundary rest2
       | none => false)

/-- Scan for the R-done frame, tracking the previous character. -/
def rdoneTestAux (prev : Option Nat) : List Nat → Bool
  | [] => false
  | c :: cs => rdoneHere prev (c :: cs) || rdoneTestAux (some c) cs

/-- Unanchored search for the R-done frame. -/
def rdoneTest (s : List Nat) : Bool := rdoneTestAux none s

/-- Trimmed text equals the word busy up to case: the busy-frame test. -/
def busyTest (t : List Nat) : Bool := (trim t).map lowC == codes ("busy")

/-- Word-bounded hex run of length at least 64 at the current position; the
run is maximal, since every hex character is a word character. -/
def hexRunHere (prev : Option Nat) (s : List Nat) : Option (List Nat) :=
  let run := s.takeWhile isHexC
  if noWordB prev && decide (64 ≤ run.length) && headBoundary (s.dropWhile isHexC) then
    some run
  else none

/-- Leftmost word-bounded hex run of length at least 64, as used by the
legacy signature fallback. -/
def hexRunSearchAux (prev : Option Nat) : List Nat → Option (List Nat)
  | [] => none
  | c :: cs =>
    match hexRunHere prev (c :: cs) with
    | some r => some r
    | none => hexRunSearchAux (some c) cs

/-- Search wrapper for the legacy signature hex run. -/
def hexRunSearch (s : List Nat) : Option (List Nat) := hexRunSearchAux none s

/-- Phase tag of a decoded status frame, the discriminant of the status
union in the hook. -/
inductive PhState where
  | ERROR | PH_INIT_K | PH_INIT_R | PH_R_WORK | PH_R_DONE | PH_DONE | PH_IDLE | BUSY
deriving DecidableEq, Repr

/-- A decoded status payload.  The hook builds loosely-typed objects and adds
fields dynamically during backfill, so every field beyond the discriminant is
optional here. -/
structure StatusObj where
  state : PhState
  error : Option (List Nat) := none
  progress : Option Int := none
  stepsRemaining : Option Nat := none
  stepsTotal : Option Int := none
  signature : Option (List Nat) := none
  pubkey : Option (List Nat) := none
deriving DecidableEq, Repr

/-- Total step count of the R phase, the constant TOTAL_STEPS. -/
def TOTAL_STEPS : Int := 255

/-- Progress reported for the initialization phases, the constant
INIT_PROGRESS. -/
def INIT_PROGRESS : Int := 10

/-- Progress ceiling of the R phase, the constant R_DONE_PROGRESS. -/
def R_DONE_PROGRESS : Int := 95

/-- JavaScript Math.max on two integers. -/
def jsMax (a b : Int) : Int := if a ≤ b then b else a

/-- JavaScript Math.min on two integers. -/
def jsMin (a b : Int) : Int := if a ≤ b then a else b

/-- JavaScript Math.round: round half toward positive infinity. -/
def jsRound (x : Rat) : Int := Int.floor (x + 1 / 2)

/-- The helper clamp01to100: round, then clamp into the interval from 0
to 100. -/
def clamp01to100 (n : Rat) : Int := jsMax 0 (jsMin 100 (jsRound n))

/-- Result record of the progress mapper. -/
structure PFR where
  progress : Int
  stepsTotal : Int
deriving DecidableEq, Repr

/-- The local constant clamped of progressFromRemaining: the rounded
remaining-step count clamped into the step range. -/
def clampedOf (rem : Rat) : Int := jsMax 0 (jsMin TOTAL_STEPS (jsRound rem))

/-- The local constant ratio of progressFromRemaining: the fraction of work
already performed, between 0 and 1. -/
def ratioOf (rem : Rat) : Rat :=
  ((TOTAL_STEPS : Rat) - (clampedOf rem : Rat)) / (TOTAL_STEPS : Rat)

/-- The local constant pct of progressFromRemaining: the raw percentage
before rounding and clamping. -/
def pctOf (rem : Rat) : Rat :=
  (INIT_PROGRESS : Rat) + ratioOf rem * ((R_DONE_PROGRESS : Rat) - (INIT_PROGRESS : Rat))

/-- The progress mapper progressFromRemaining: clamp the remaining-step count
into the step range, then map it linearly from INIT_PROGRESS down at the full
count to R_DONE_PROGRESS at zero remaining. -/
def progressFromRemaining (rem : Rat) : PFR :=
  { progress := clamp01to100 (pctOf rem), stepsTotal := TOTAL_STEPS }

/-- The status decoder parseEdSignTextStatus, an ordered first-match-wins
cascade over the trimmed text: error substring, explicit init phases, the
canonical work frame, the looser R-prefix fallback, the R-done frame, the
128-hex signature, the 64-hex public key, the busy frame, then the legacy
signature and done keywords, else no match. -/
def parseEdSignTextStatus (text : List Nat) : Option StatusObj :=
  let t := trim text
  if containsCI t (codes ("err")) then
    some { state := .ERROR, error := some t }
  else if containsWordCI t (codes ("ph_init_k")) then
    some { state := .PH_INIT_K, progress := some INIT_PROGRESS }
  else if containsWordCI t (codes ("ph_init_r")) then
    some { state := .PH_INIT_R, progress := some INIT_PROGRESS }
  else
    match riSearch t with
    | some n => some { state := .PH_R_WORK, stepsRemaining := some n }
    | none =>
      if startsRB t then
        match firstDigitRun t with
        | some ds => some { state := .PH_R_WORK, stepsRemaining := some (digitsToNat ds) }
        | none => some { state := .PH_R_WORK }
      else if rdoneTest t then
        some { state := .PH_R_DONE }
      else if t.length == 128 && t.all isHexC then
        some { state := .PH_DONE, signature := some t, progress := some 100 }
      else if t.length == 64 && t.all isHexC then
        some { state := .PH_IDLE, pubkey := some t }
      else if busyTest t then
        some { state := .BUSY }
      else if containsCI t (codes ("sig")) then
        match hexRunSearch t with
        | some run =>
          if run.length == 128 then
            some { state := .PH_DONE, signature := some run, progress := some 100 }
          else
            some { state := .PH_DONE, progress := some 100 }
        | none => some { state := .PH_DONE, progress := some 100 }
      else if containsWordCI t (codes ("done")) || containsWordCI t (codes ("ok"))
              || containsWordCI t (codes ("success")) then
        some { state := .PH_DONE, progress := some 100 }
      else
        none

/-- The status backfill performed by the frame extractor on a decoded status:
inject init progress when missing, map a step count through the progress
mapper, nudge the R-done phase into the final window, and pin the done phase
at 100. -/
def backfill (st0 : StatusObj) : StatusObj :=
  let st1 :=
    if (st0.state = .PH_INIT_K ∨ st0.state = .PH_INIT_R) ∧ st0.progress = none then
      { st0 with progress := some INIT_PROGRESS }
    else st0
  let st2 :=
    match st1.stepsRemaining with
    | some n =>
      { st1 with progress := some (progressFromRemaining (n : Rat)).progress,
                 stepsTotal := some (progressFromRemaining (n : Rat)).stepsTotal }
    | none => st1
  let st3 :=
    if st2.state = .PH_R_DONE ∧ st2.progress = none then
      { st2 with progress := some (max R_DONE_PROGRESS 97), stepsTotal := some TOTAL_STEPS }
    else st2
  if st3.state = .PH_DONE then { st3 with progress := some 100 } else st3

/-- One NDEF record of a tag-read event: record type, optional media type,
optional id, optional payload bytes.  Bytes are modelled as lists of Nat. -/
structure NdefRecord where
  recordType : String
  mediaType : Option String := none
  id : Option String := none
  data : Option (List Nat) := none
deriving DecidableEq, Repr

/-- Metadata of one record as hashed by the extractor into the record-shape
signature: record type, media type, id and payload length. -/
structure RecordMeta where
  t : String
  m : Option String
  rid : Option String
  len : Nat
deriving DecidableEq, Repr

/-- The record-shape metadata of one record. -/
def recMeta (r : NdefRecord) : RecordMeta :=
  { t := r.recordType, m := r.mediaType, rid := r.id, len := (r.data.getD []).length }

/-- A payload produced by the frame extractor: parsed structured data, a
decoded status, a bare public key, or the raw-text fallback object with its
optional labelled fields.  The type of parsed structured data is a parameter,
standing for the external JSON parser's value type. -/
inductive Payload (J : Type) where
  | json (v : J)
  | status (st : StatusObj)
  | pubkeyOnly (publicKey : List Nat)
  | raw (rawText : List Nat) (publicKey : Option (List Nat)) (chipId : Option (List Nat))
deriving DecidableEq, Repr

/-- The helper safeDecode: absent payload bytes or a failing text decode give
the empty text; decoding is supplied by the platform text decoder, modelled
as a partial function from bytes to text. -/
def safeDecode (dec : List Nat → Option (List Nat)) (data : Option (List Nat)) : List Nat :=
  match data with
  | none => []
  | some d => (dec d).getD []

/-- The trimmed text begins with an object or array opener, the guard before
any structured-data parse is attempted. -/
def isJsonStart (t : List Nat) : Bool :=
  match trim t with
  | c :: _ => c == 123 || c == 91
  | [] => false

/-- Extractor step 1: first record with a structured-data media type whose
nonempty decoded text looks structured and parses. -/
def step1 {J : Type} (jp : List Nat → Option J) (dec : List Nat → Option (List Nat)) :
    List NdefRecord → Option J
  | [] => none
  | r :: rs =>
    let text := safeDecode dec r.data
    if (r.mediaType == some ("application/vnd.edsign+json")
        || r.mediaType == some ("application/json"))
       && !text.isEmpty && isJsonStart text then
      match jp text with
      | some v => some v
      | none => step1 jp dec rs
    else step1 jp dec rs

/-- Extractor step 2: first text record whose nonempty decoded text looks
structured and parses. -/
def step2 {J : Type} (jp : List Nat → Option J) (dec : List Nat → Option (List Nat)) :
    List NdefRecord → Option J
  | [] => none
  | r :: rs =>
    let text := safeDecode dec r.data
    if r.recordType == ("text") && !text.isEmpty && isJsonStart text then
      match jp text with
      | some v => some v
      | none => step2 jp dec rs
    else step2 jp dec rs

/-- Extractor step 3: first text record whose decoded text matches the status
grammar, with progress and step totals backfilled. -/
def step3 (dec : List Nat → Option (List Nat)) : List NdefRecord → Option StatusObj
  | [] => none
  | r :: rs =>
    if r.recordType == ("text") then
      match parseEdSignTextStatus (safeDecode dec r.data) with
      | some st => some (backfill st)
      | none => step3 dec rs
    else step3 dec rs

/-- Trimmed texts of all text records with nonempty decoded text, as
collected by the raw-text fallback. -/
def collectTexts (dec : List Nat → Option (List Nat)) : List NdefRecord → List (List Nat)
  | [] => []
  | r :: rs =>
    if r.recordType == ("text") then
      let text := safeDecode dec r.data
      if !text.isEmpty then trim text :: collectTexts dec rs
      else collectTexts dec rs
    else collectTexts dec rs

/-- The capture of the labelled public-key pattern at the head of the text:
the word pubkey, or the word public with an optional underscore or space
before key, then optional spaces, a colon or equals sign, optional spaces,
and a nonempty hex run which is returned. -/
def labelCapture (s : List Nat) : Option (List Nat) :=
  let r1 := skipWS s
  match r1 with
  | c :: r2 =>
    if c == 58 || c == 61 then
      let ds := (skipWS r2).takeWhile isHexC
      if ds.isEmpty then none else some ds
    else none
  | [] => none

/-- Match the labelled public-key pattern at the current position. -/
def pubkeyHere (s : List Nat) : Option (List Nat) :=
  match dropPrefCI s (codes ("pubkey")) with
  | some rest => labelCapture rest
  | none =>
    match dropPrefCI s (codes ("public")) with
    | some rest =>
      let rest2 := match rest with
        | c :: t => if c == 95 || isWS c then t else rest
        | [] => rest
      match dropPrefCI rest2 (codes ("key")) with
      | some rest3 => labelCapture rest3
      | none => none
    | none => none

/-- Leftmost match of the labelled public-key pattern. -/
def pubkeySearch : List Nat → Option (List Nat)
  | [] => none
  | c :: cs =>
    match pubkeyHere (c :: cs) with
    | some h => some h
    | none => pubkeySearch cs

/-- Match the word-bounded labelled chip-id pattern at the current position:
the word uid, or the word chip with an optional underscore or space before
id, then the colon-or-equals capture. -/
def uidHere (prev : Option Nat) (s : List Nat) : Option (List Nat) :=
  if noWordB prev then
    match dropPrefCI s (codes ("uid")) with
    | some rest => labelCapture rest
    | none =>
      match dropPrefCI s (codes ("chip")) with
      | some rest =>
        let rest2 := match rest with
          | c :: t => if c == 95 || isWS c then t else rest
          | [] => rest
        match dropPrefCI rest2 (codes ("id")) with
        | some rest3 => labelCapture rest3
        | none => none
      | none => none
  else none

/-- Leftmost match of the labelled chip-id pattern, tracking the previous
character for its leading word boundary. -/
def uidSearchAux (prev : Option Nat) : List Nat → Option (List Nat)
  | [] => none
  | c :: cs =>
    match uidHere prev (c :: cs) with
    | some h => some h
    | none => uidSearchAux (some c) cs

/-- Search wrapper for the labelled chip-id pattern. -/
def uidSearch (s : List Nat) : Option (List Nat) := uidSearchAux none s

/-- Extractor step 4, the raw-text fallback: join all collected texts with
newlines and trim; a bare 64-hex result is a public key, anything else is
returned as a raw-text object with optional labelled fields. -/
def step4 {J : Type} (dec : List Nat → Option (List Nat)) (records : List NdefRecord) :
    Option (Payload J) :=
  let texts := collectTexts dec records
  if texts.isEmpty then none
  else
    let rawText := trim (List.intercalate [10] texts)
    if rawText.length == 64 && rawText.all isHexC then some (.pubkeyOnly rawText)
    else some (.raw rawText (pubkeySearch rawText) (uidSearch rawText))

/-- The frame extractor tryParseFromEvent: the four strategies in order,
first success wins, and no payload when every strategy fails. -/
def tryParseFromEvent {J : Type} (jp : List Nat → Option J)
    (dec : List Nat → Option (List Nat)) (records : List NdefRecord) : Option (Payload J) :=
  match step1 jp dec records with
  | some v => some (.json v)
  | none =>
    match step2 jp dec records with
    | some v => some (.json v)
    | none =>
      match step3 dec records with
      | some st => some (.status st)
      | none => step4 dec records

/-- Options accepted by startScan, all optional. -/
structure StartOptions where
  pollMs : Option Nat := none
  deepResetEveryMs : Option Nat := none
  deepResetPauseMs : Option Nat := none
  staleAfterMs : Option Nat := none
deriving DecidableEq, Repr

/-- State of the scan-session controller: the configuration refs, the
emitter's stored payload serialization and record-shape hash, the two
timestamps, the single-shot flag, whether the poll interval is armed, and the
abort-controller generation with its aborted flag.  Comparing stored payloads
structurally models comparing their canonical JSON serializations. -/
structure SessionState (J : Type) where
  pollingMs : Nat
  deepEvery : Nat
  deepPause : Nat
  staleAfter : Nat
  lastHash : Option (List RecordMeta)
  lastPayload : Option (Payload J)
  lastUpdateTs : Int
  lastDeepResetTs : Int
  suppressRescan : Bool
  pollingActive : Bool
  controllerGen : Nat
  currentAborted : Bool
deriving DecidableEq, Repr

/-- The effect of doScan on the session state: abort any previous controller
and install a fresh one. -/
def doScan {J : Type} (s : SessionState J) : SessionState J :=
  { s with controllerGen := s.controllerGen + 1, currentAborted := false }

/-- The change-coalescing emitter emitIfChanged: compare the payload with the
stored serialization; only on a change store it, stamp the update timestamp,
and fire the consumer callback.  The returned flag records whether the
callback fired. -/
def emitIfChanged {J : Type} [DecidableEq J] (s : SessionState J) (now : Int)
    (payload : Payload J) : SessionState J × Bool :=
  if some payload = s.lastPayload then (s, false)
  else ({ s with lastPayload := some payload, lastUpdateTs := now }, true)

/-- The reading-event listener: stamp the record-shape hash, run the frame
extractor, and hand any payload to the emitter.  The returned flag records
whether the consumer callback fired. -/
def onReadingEvent {J : Type} [DecidableEq J] (jp : List Nat → Option J)
    (dec : List Nat → Option (List Nat)) (s : SessionState J) (now : Int)
    (records : List NdefRecord) : SessionState J × Bool :=
  let s1 := { s with lastHash := some (records.map recMeta) }
  match tryParseFromEvent jp dec records with
  | some p => emitIfChanged s1 now p
  | none => (s1, false)

/-- JavaScript Math.max on the natural configuration values. -/
def jsMaxN (a b : Nat) : Nat := if a ≤ b then b else a

/-- The continuous-mode startScan: install the clamped configuration, clear
the emitter serialization and record-shape hash, leave single-shot mode,
start a scan, stamp both timestamps, and arm the poll interval. -/
def startScan {J : Type} (s : SessionState J) (opts : StartOptions) (now : Int) :
    SessionState J :=
  let s1 := { s with
    pollingMs := jsMaxN 250 (opts.pollMs.getD 1000),
    deepEvery := jsMaxN 3000 (opts.deepResetEveryMs.getD 10000),
    deepPause := jsMaxN 500 (opts.deepResetPauseMs.getD 1800),
    staleAfter := jsMaxN 2000 (opts.staleAfterMs.getD 5000),
    lastPayload := none,
    lastHash := none,
    suppressRescan := false }
  let s2 := doScan s1
  { s2 with lastDeepResetTs := now, lastUpdateTs := now, pollingActive := true }

/-- The decision taken by one poll tick: a deep reset when the deep-reset
period has elapsed or no emitted change has been seen for the staleness
window, otherwise a light rescan. -/
inductive TickAction where
  | deepReset
  | lightRescan
deriving DecidableEq, Repr

/-- The poll-tick decision, computed from the current time and the two
timestamps. -/
def tickAction {J : Type} (s : SessionState J) (now : Int) : TickAction :=
  if (s.deepEvery : Int) ≤ now - s.lastDeepResetTs
     ∨ (s.staleAfter : Int) ≤ now - s.lastUpdateTs then
    .deepReset
  else .lightRescan

/-- The state effect of one poll tick.  A deep reset aborts the scan, pauses,
restarts it and stamps the deep-reset timestamp with the completion time; a
light rescan only restarts the scan. -/
def applyTick {J : Type} (s : SessionState J) (now endTs : Int) : SessionState J :=
  match tickAction s now with
  | .deepReset => { doScan { s with currentAborted := true } with lastDeepResetTs := endTs }
  | .lightRescan => doScan s

/-- Reentrancy bookkeeping of the poll loop: the restarting flag guarding
rescanNow, and the number of rescan or deep-reset operations currently in
flight.  The poll interval fires on a fixed period, so a tick can begin while
a previous operation is still awaiting. -/
structure ScanCtl where
  restarting : Bool
  inFlight : Nat
deriving DecidableEq, Repr

/-- The start of rescanNow: a tick is dropped when the restarting flag is
already set, otherwise the flag is taken and the operation begins. -/
def rescanBegin (g : ScanCtl) : ScanCtl :=
  if g.restarting then g else { restarting := true, inFlight := g.inFlight + 1 }

/-- The start of deepReset: the operation begins unconditionally, since
deepReset consults no reentrancy flag. -/
def deepResetBegin (g : ScanCtl) : ScanCtl :=
  { g with inFlight := g.inFlight + 1 }

/-- The start of one poll-interval callback: the deep path when the deep
condition or staleness holds, the guarded rescan path otherwise. -/
def pollTickBegin (g : ScanCtl) (dueDeep stale : Bool) : ScanCtl :=
  if dueDeep || stale then deepResetBegin g else rescanBegin g

/-- Handle on the timeout armed by startSingleRead: its delay, the
controller generation it captured, and whether the disposer cleared it. -/
structure SingleTimeout where
  delayMs : Nat
  guardGen : Nat
  cleared : Bool
deriving DecidableEq, Repr

/-- The single-shot startSingleRead: enter single-shot mode, stop interval
polling, clear the emitter serialization and record-shape hash, start a scan,
and arm a timeout that captured the new controller. -/
def startSingleRead {J : Type} (s : SessionState J) (timeoutMs : Nat := 3000) :
    SessionState J × SingleTimeout :=
  let s1 := { s with
    suppressRescan := true,
    pollingActive := false,
    lastPayload := none,
    lastHash := none }
  let s2 := doScan s1
  (s2, { delayMs := timeoutMs, guardGen := s2.controllerGen, cleared := false })

/-- Firing of the single-read timeout: abort the scan only when the timeout
was not cleared and the controller is still the one it captured. -/
def fireSingleTimeout {J : Type} (s : SessionState J) (t : SingleTimeout) : SessionState J :=
  if t.cleared = false ∧ s.controllerGen = t.guardGen then
    { s with currentAborted := true }
  else s

/-- The disposer returned by startSingleRead clears the timeout. -/
def disposeSingleTimeout (t : SingleTimeout) : SingleTimeout := { t with cleared := true }

/-- State of the device-info flow in the example application around a
single read: the in-progress flag, the scanning flag, and the surfaced
error message. -/
structure AppInfoState where
  isGettingDeviceInfo : Bool
  isScanning : Bool
  errorMsg : Option String
deriving DecidableEq, Repr

/-- The failsafe timeout of handleGetDeviceInfo: when the device-info flow is
still in progress it is torn down and a timed-out failure is surfaced. -/
def failsafeFire (a : AppInfoState) : AppInfoState :=
  if a.isGettingDeviceInfo then
    { isGettingDeviceInfo := false, isScanning := false,
      errorMsg := some ("Timed out reading device info") }
  else a

/-- Bound on the number of power cycles, the constant maxCycles. -/
def maxCycles : Nat := 100

/-- State of the power-cycle supervisor: the cycle counter, the
should-continue flag cleared by a stop request, and the surfaced error. -/
structure SupState where
  cycleCount : Nat
  shouldContinue : Bool
  errorMsg : Option String
deriving DecidableEq, Repr

/-- External inputs observed during one supervisor iteration: whether the
session status reads computing before and after the cycle body, whether a
stop was requested, and whether the cycle body threw. -/
structure CycleEnv where
  statusBefore : Bool
  statusAfter : Bool
  cancelRequested : Bool
  scanFails : Bool
deriving DecidableEq, Repr

/-- The stop helper stopPowerCycling, as far as the supervisor state is
concerned: request the loop to stop. -/
def stopPowerCycling (s : SupState) : SupState := { s with shouldContinue := false }

/-- One cycle body doCycle: at the cycle bound, stop and surface the
computation-timeout failure; when a stop was requested, end without a cycle;
otherwise count the cycle and report whether its scan windows completed.
The returned flag is the continue-next value. -/
def doCycle (scanFails : Bool) (s : SupState) : SupState × Bool :=
  if maxCycles ≤ s.cycleCount then
    ({ s with shouldContinue := false, errorMsg := some ("Computation timeout") }, false)
  else if s.shouldContinue = false then (s, false)
  else ({ s with cycleCount := s.cycleCount + 1 }, !scanFails)

/-- The driver runCycles: check the session status, run one cycle, and
recurse while the cycle succeeded, no stop was requested, and the status
still reads computing; otherwise stop.  The fuel argument bounds the number
of iterations; none means the fuel ran out mid-loop. -/
def runCycles (env : Nat → CycleEnv) : Nat → Nat → SupState → Option SupState
  | 0, _, _ => none
  | fuel + 1, k, s =>
    if (env k).statusBefore = false then some (stopPowerCycling s)
    else
      let s0 := if (env k).cancelRequested then { s with shouldContinue := false } else s
      let r := doCycle (env k).scanFails s0
      if r.2 && r.1.shouldContinue && (env k).statusAfter then
        runCycles env fuel (k + 1) r.1
      else some (stopPowerCycling r.1)

/-- The supervisor state installed by startPowerCycling before the first
cycle. -/
def initialSupState : SupState := { cycleCount := 0, shouldContinue := true, errorMsg := none }

/-- The environment of a run in which the session status never leaves
computing, no stop is requested, and every cycle body completes. -/
def computingEnv : Nat → CycleEnv :=
  fun _ => { statusBefore := true, statusAfter := true, cancelRequested := false, scanFails := false }

/-- A text record with the given payload bytes. -/
def textRec (t : List Nat) : NdefRecord := { recordType := ("text"), data := some t }

/-- The identity text decoding: the successful decode of ASCII text, whose
code units are the code points. -/
def idDecode : List Nat → Option (List Nat) := fun d => some d

/-- A structured-data parser that accepts nothing, adequate for frames that
never look structured. -/
def noJson : List Nat → Option Unit := fun _ => none

/-- The decoder pipeline on one text frame: the frame extractor applied to a
single-record event carrying the given text. -/
def extractText (t : List Nat) : Option (Payload Unit) :=
  tryParseFromEvent noJson idDecode [textRec t]

/-- A text decoding that fails on every input, as a decoder throwing on
every payload would. -/
def failDecode : List Nat → Option (List Nat) := fun _ => none

/-- The hook state as first mounted: the default configuration in the refs,
empty serializations, zero timestamps, continuous mode, no controller. -/
def initialSession : SessionState Unit :=
  { pollingMs := 1000, deepEvery := 10000, deepPause := 1800, staleAfter := 5000,
    lastHash := none, lastPayload := none, lastUpdateTs := 0, lastDeepResetTs := 0,
    suppressRescan := false, pollingActive := false, controllerGen := 0,
    currentAborted := false }

/-- A session state that has been stale for longer than its staleness
window but whose deep-reset period has not elapsed. -/
def staleExample : SessionState Unit :=
  { initialSession with staleAfter := 5000, lastUpdateTs := 0, lastDeepResetTs := 5000, deepEvery := 10000 }

/-- A session state whose stored serialization equals the payload the next
session will read, as left behind by a previous session. -/
def repeatState : SessionState Unit :=
  { initialSession with lastPayload := some (.status { state := .BUSY }) }


theorem jsMax_eq (a b : Int) : jsMax a b = max a b := by
  rcases le_total a b with h | h
  · simp [jsMax, h, max_eq_right h]
  · rcases eq_or_lt_of_le h with rfl | h'
    · simp [jsMax]
    · simp [jsMax, not_le.mpr h', max_eq_left h]

theorem jsMin_eq (a b : Int) : jsMin a b = min a b := by
  rcases le_total a b with h | h
  · simp [jsMin, h, min_eq_left h]
  · rcases eq_or_lt_of_le h with rfl | h'
    · simp [jsMin]
    · simp [jsMin, not_le.mpr h', min_eq_right h]

theorem jsRound_mono {x y : Rat} (h : x ≤ y) : jsRound x ≤ jsRound y :=
  Int.floor_le_floor (by linarith)

theorem jsRound_int (n : Int) : jsRound ((n : Rat)) = n := by
  rw [jsRound, Int.floor_eq_iff]
  constructor <;> push_cast <;> linarith

theorem clampedOf_nonneg (rem : Rat) : 0 ≤ clampedOf rem := by
  rw [clampedOf, jsMax_eq]; exact le_max_left _ _

theorem clampedOf_le (rem : Rat) : clampedOf rem ≤ 255 := by
  rw [clampedOf, jsMax_eq, jsMin_eq]
  exact max_le (by norm_num) (le_trans (min_le_left _ _) (by norm_num [TOTAL_STEPS]))

theorem clampedOf_mono {x y : Rat} (h : x ≤ y) : clampedOf x ≤ clampedOf y := by
  rw [clampedOf, clampedOf, jsMax_eq, jsMax_eq, jsMin_eq, jsMin_eq]
  exact max_le_max le_rfl (min_le_min le_rfl (jsRound_mono h))

theorem ratioOf_nonneg (rem : Rat) : 0 ≤ ratioOf rem := by
  rw [ratioOf]
  apply div_nonneg _ (by norm_num [TOTAL_STEPS])
  have h := clampedOf_le rem
  have h2 : ((clampedOf rem : Rat)) ≤ 255 := by exact_mod_cast h
  norm_num [TOTAL_STEPS]; linarith

theorem ratioOf_le_one (rem : Rat) : ratioOf rem ≤ 1 := by
  rw [ratioOf, div_le_one (by norm_num [TOTAL_STEPS])]
  have h := clampedOf_nonneg rem
  have h2 : (0:Rat) ≤ (clampedOf rem : Rat) := by exact_mod_cast h
  norm_num [TOTAL_STEPS]; linarith

theorem ratioOf_anti {x y : Rat} (h : x ≤ y) : ratioOf y ≤ ratioOf x := by
  rw [ratioOf, ratioOf]
  have hc : clampedOf x ≤ clampedOf y := clampedOf_mono h
  have hc2 : ((clampedOf x : Rat)) ≤ (clampedOf y : Rat) := by exact_mod_cast hc
  apply (div_le_div_iff_of_pos_right (by norm_num [TOTAL_STEPS] : (0:Rat) < (TOTAL_STEPS:Rat))).mpr
  linarith

theorem pctOf_range (rem : Rat) : 10 ≤ pctOf rem ∧ pctOf rem ≤ 95 := by
  have h0 := ratioOf_nonneg rem
  have h1 := ratioOf_le_one rem
  rw [pctOf]
  norm_num [INIT_PROGRESS, R_DONE_PROGRESS]
  constructor <;> nlinarith

theorem progress_range (rem : Rat) :
    10 ≤ (progressFromRemaining rem).progress ∧ (progressFromRemaining rem).progress ≤ 95 := by
  obtain ⟨hl, hr⟩ := pctOf_range rem
  have hfl : (10:Int) ≤ jsRound (pctOf rem) := by
    rw [jsRound, Int.le_floor]; push_cast; linarith
  have hfr : jsRound (pctOf rem) ≤ 95 := by
    rw [jsRound]
    have h96 : Int.floor (pctOf rem + 1/2) < 96 := by
      rw [Int.floor_lt]; push_cast; linarith
    omega
  rw [progressFromRemaining]
  simp only
  rw [clamp01to100, jsMax_eq, jsMin_eq]
  constructor
  · rw [max_eq_right, min_eq_right] <;> omega
  · rw [max_eq_right, min_eq_right] <;> omega

theorem progress_anti {x y : Rat} (h : x ≤ y) :
    (progressFromRemaining y).progress ≤ (progressFromRemaining x).progress := by
  have hr : ratioOf y ≤ ratioOf x := ratioOf_anti h
  have hp : pctOf y ≤ pctOf x := by
    rw [pctOf, pctOf]
    have h85 : ((R_DONE_PROGRESS : Rat) - (INIT_PROGRESS : Rat)) = 85 := by
      norm_num [R_DONE_PROGRESS, INIT_PROGRESS]
    rw [h85]
    nlinarith
  have hj : jsRound (pctOf y) ≤ jsRound (pctOf x) := jsRound_mono hp
  rw [progressFromRemaining, progressFromRemaining]
  simp only
  rw [clamp01to100, clamp01to100, jsMax_eq, jsMax_eq, jsMin_eq, jsMin_eq]
  exact max_le_max le_rfl (min_le_min le_rfl hj)

theorem pfr_at_255 : (progressFromRemaining ((255:Int) : Rat)).progress = 10 := by
  have h1 : clampedOf ((255:Int) : Rat) = 255 := by
    rw [clampedOf, jsRound_int]; norm_num [jsMax, jsMin, TOTAL_STEPS]
  have h2 : pctOf ((255:Int) : Rat) = 10 := by
    rw [pctOf, ratioOf, h1]; norm_num [TOTAL_STEPS, INIT_PROGRESS, R_DONE_PROGRESS]
  rw [progressFromRemaining]
  simp only [h2]
  have h3 : jsRound (10 : Rat) = 10 := by
    rw [show ((10:Rat)) = ((10:Int) : Rat) by norm_num, jsRound_int]
  rw [clamp01to100, h3]; norm_num [jsMax, jsMin]

theorem pfr_at_0 : (progressFromRemaining ((0:Int) : Rat)).progress = 95 := by
  have h1 : clampedOf ((0:Int) : Rat) = 0 := by
    rw [clampedOf, jsRound_int]; norm_num [jsMax, jsMin, TOTAL_STEPS]
  have h2 : pctOf ((0:Int) : Rat) = 95 := by
    rw [pctOf, ratioOf, h1]; norm_num [TOTAL_STEPS, INIT_PROGRESS, R_DONE_PROGRESS]
  rw [progressFromRemaining]
  simp only [h2]
  have h3 : jsRound (95 : Rat) = 95 := by
    rw [show ((95:Rat)) = ((95:Int) : Rat) by norm_num, jsRound_int]
  rw [clamp01to100, h3]; norm_num [jsMax, jsMin]

theorem pfr_at_128 :
    progressFromRemaining (128 : Rat) = { progress := 52, stepsTotal := 255 } := by
  have h1 : clampedOf (128 : Rat) = 128 := by
    rw [clampedOf, show ((128:Rat)) = ((128:Int):Rat) by norm_num, jsRound_int]
    norm_num [jsMax, jsMin, TOTAL_STEPS]
  have h2 : pctOf (128 : Rat) = 157/3 := by
    rw [pctOf, ratioOf, h1]; norm_num [TOTAL_STEPS, INIT_PROGRESS, R_DONE_PROGRESS]
  have h3 : jsRound (157/3 : Rat) = 52 := by
    rw [jsRound, Int.floor_eq_iff]
    constructor <;> push_cast <;> linarith
  rw [progressFromRemaining, PFR.mk.injEq]
  rw [h2, clamp01to100, h3]
  norm_num [jsMax, jsMin, TOTAL_STEPS]

/-- Claim C4: for every integer remaining in the interval from 0 to 255, the
progress mapper yields progress between 10 and 95 with stepsTotal 255, the
progress is non-increasing as remaining increases, and the endpoints map 255
to 10 and 0 to 95. -/
theorem c4_progress_mapper (r r' : Int) (h0 : 0 ≤ r) (h1 : r ≤ 255)
    (h0' : 0 ≤ r') (h1' : r' ≤ 255) (hrr : r ≤ r') :
    (10 ≤ (progressFromRemaining (r : Rat)).progress
      ∧ (progressFromRemaining (r : Rat)).progress ≤ 95
      ∧ (progressFromRemaining (r : Rat)).stepsTotal = 255
      ∧ (progressFromRemaining ((r' : Rat))).progress ≤ (progressFromRemaining (r : Rat)).progress)
    ∧ (progressFromRemaining ((255:Int) : Rat)).progress = 10
    ∧ (progressFromRemaining ((0:Int) : Rat)).progress = 95 := by
  refine ⟨⟨(progress_range _).1, (progress_range _).2, rfl,
    progress_anti (by exact_mod_cast hrr)⟩, pfr_at_255, pfr_at_0⟩

/-- Witness for claim C4 at the concrete pair 0 and 255. -/
theorem c4_progress_mapper_witness :
    (10 ≤ (progressFromRemaining ((0:Int) : Rat)).progress
      ∧ (progressFromRemaining ((0:Int) : Rat)).progress ≤ 95
      ∧ (progressFromRemaining ((0:Int) : Rat)).stepsTotal = 255
      ∧ (progressFromRemaining ((255:Int) : Rat)).progress
          ≤ (progressFromRemaining ((0:Int) : Rat)).progress)
    ∧ (progressFromRemaining ((255:Int) : Rat)).progress = 10
    ∧ (progressFromRemaining ((0:Int) : Rat)).progress = 95 :=
  c4_progress_mapper 0 255 (by norm_num) (by norm_num) (by norm_num) (by norm_num) (by norm_num)

theorem isHexC_ranges {c : Nat} (h : isHexC c = true) :
    (48 ≤ c ∧ c ≤ 57) ∨ (65 ≤ c ∧ c ≤ 70) ∨ (97 ≤ c ∧ c ≤ 102) := by
  simp only [isHexC, isDigitC, Bool.or_eq_true, decide_eq_true_eq] at h
  tauto

theorem hex_lowC {c : Nat} (h : isHexC c = true) :
    (48 ≤ lowC c ∧ lowC c ≤ 57) ∨ (97 ≤ lowC c ∧ lowC c ≤ 102) := by
  have h2 := isHexC_ranges h
  rw [lowC]
  split <;> omega

theorem hex_lowC_ne {c k : Nat} (h : isHexC c = true)
    (hk : ¬(48 ≤ k ∧ k ≤ 57) ∧ ¬(97 ≤ k ∧ k ≤ 102)) : (lowC c == k) = false := by
  have h2 := hex_lowC h
  simp only [beq_eq_false_iff_ne, ne_eq]
  omega

theorem hex_not_ws {c : Nat} (h : isHexC c = true) : isWS c = false := by
  have h2 := isHexC_ranges h
  simp only [isWS, decide_eq_false_iff_not]
  omega

theorem dropWhileWS_allhex {s : List Nat} (h : ∀ c ∈ s, isHexC c = true) :
    s.dropWhile isWS = s := by
  cases s with
  | nil => rfl
  | cons c cs =>
    rw [List.dropWhile_cons]
    simp [hex_not_ws (h c (List.mem_cons_self c cs))]

theorem trim_allhex {s : List Nat} (h : ∀ c ∈ s, isHexC c = true) : trim s = s := by
  rw [trim, dropWhileWS_allhex h, dropWhileWS_allhex, List.reverse_reverse]
  intro c hc
  exact h c (List.mem_reverse.mp hc)

theorem startsWithCI_r_hex {s : List Nat} (h : ∀ c ∈ s, isHexC c = true) (l : List Nat) :
    startsWithCI s (114 :: l) = false := by
  cases s with
  | nil => rfl
  | cons c cs =>
    rw [startsWithCI, hex_lowC_ne (h c (List.mem_cons_self c cs)) (by omega)]
    simp

theorem containsCI_err_hex {s : List Nat} (h : ∀ c ∈ s, isHexC c = true) :
    containsCI s (codes ("err")) = false := by
  induction s with
  | nil => decide
  | cons c cs ih =>
    rw [containsCI]
    have hcs : ∀ x ∈ cs, isHexC x = true := fun x hx => h x (List.mem_cons_of_mem c hx)
    have h1 : startsWithCI (c :: cs) (codes ("err")) = false := by
      show startsWithCI (c :: cs) (101 :: 114 :: 114 :: []) = false
      rw [startsWithCI, startsWithCI_r_hex hcs]
      simp
    rw [h1, ih hcs]
    rfl

theorem containsWordCIAux_p_hex {s : List Nat} (h : ∀ c ∈ s, isHexC c = true) (ps : List Nat) :
    ∀ prev, containsWordCIAux prev s (112 :: ps) = false := by
  induction s with
  | nil =>
    intro prev
    simp [containsWordCIAux, wordHereCI, dropPrefCI]
  | cons c cs ih =>
    intro prev
    rw [containsWordCIAux, wordHereCI, dropPrefCI,
      hex_lowC_ne (h c (List.mem_cons_self c cs)) (by omega)]
    simp
    exact ih (fun x hx => h x (List.mem_cons_of_mem c hx)) (some c)

theorem riSearch_hex {s : List Nat} (h : ∀ c ∈ s, isHexC c = true) : riSearch s = none := by
  induction s with
  | nil => rfl
  | cons c cs ih =>
    rw [riSearch, riHere, hex_lowC_ne (h c (List.mem_cons_self c cs)) (by omega)]
    simp only [if_false]
    exact ih (fun x hx => h x (List.mem_cons_of_mem c hx))

theorem startsRB_hex {c : Nat} {cs : List Nat} (h : isHexC c = true) :
    startsRB (c :: cs) = false := by
  rw [startsRB, hex_lowC_ne h (by omega)]
  simp

theorem rdoneTestAux_hex {s : List Nat} (h : ∀ c ∈ s, isHexC c = true) :
    ∀ prev, rdoneTestAux prev s = false := by
  induction s with
  | nil => intro prev; rfl
  | cons c cs ih =>
    intro prev
    rw [rdoneTestAux, rdoneHere, hex_lowC_ne (h c (List.mem_cons_self c cs)) (by omega)]
    simp only [Bool.and_false, Bool.false_and, Bool.false_or]
    exact ih (fun x hx => h x (List.mem_cons_of_mem c hx)) (some c)

theorem isJsonStart_hex {s : List Nat} (h : ∀ c ∈ s, isHexC c = true) :
    isJsonStart s = false := by
  rw [isJsonStart, trim_allhex h]
  cases s with
  | nil => rfl
  | cons c cs =>
    have h2 := isHexC_ranges (h c (List.mem_cons_self c cs))
    simp only [Bool.or_eq_false_iff, beq_eq_false_iff_ne, ne_eq]
    omega

theorem parse_hex128 {s : List Nat} (h : ∀ c ∈ s, isHexC c = true) (hlen : s.length = 128) :
    parseEdSignTextStatus s =
      some { state := .PH_DONE, signature := some s, progress := some 100 } := by
  obtain ⟨c, cs, rfl⟩ : ∃ c cs, s = c :: cs := by
    cases s with
    | nil => simp at hlen
    | cons c cs => exact ⟨c, cs, rfl⟩
  have hall : (c :: cs).all isHexC = true := List.all_eq_true.mpr h
  simp only [parseEdSignTextStatus, trim_allhex h, containsCI_err_hex h, containsWordCI,
    (by decide : codes ("ph_init_k") = 112 :: [104, 95, 105, 110, 105, 116, 95, 107]),
    (by decide : codes ("ph_init_r") = 112 :: [104, 95, 105, 110, 105, 116, 95, 114]),
    containsWordCIAux_p_hex h, riSearch_hex h,
    startsRB_hex (h c (List.mem_cons_self c cs)), rdoneTest, rdoneTestAux_hex h,
    hlen, hall, Bool.false_eq_true, if_false, Bool.and_true, beq_self_eq_true, if_true]

theorem parse_hex64 {s : List Nat} (h : ∀ c ∈ s, isHexC c = true) (hlen : s.length = 64) :
    parseEdSignTextStatus s = some { state := .PH_IDLE, pubkey := some s } := by
  obtain ⟨c, cs, rfl⟩ : ∃ c cs, s = c :: cs := by
    cases s with
    | nil => simp at hlen
    | cons c cs => exact ⟨c, cs, rfl⟩
  have hall : (c :: cs).all isHexC = true := List.all_eq_true.mpr h
  simp only [parseEdSignTextStatus, trim_allhex h, containsCI_err_hex h, containsWordCI,
    (by decide : codes ("ph_init_k") = 112 :: [104, 95, 105, 110, 105, 116, 95, 107]),
    (by decide : codes ("ph_init_r") = 112 :: [104, 95, 105, 110, 105, 116, 95, 114]),
    containsWordCIAux_p_hex h, riSearch_hex h,
    startsRB_hex (h c (List.mem_cons_self c cs)), rdoneTest, rdoneTestAux_hex h,
    hlen, hall, Bool.false_eq_true, if_false, Bool.and_true, beq_self_eq_true, if_true,
    (by decide : (((64:Nat) == 128)) = false)]

theorem extractText_hex128 {s : List Nat} (h : ∀ c ∈ s, isHexC c = true)
    (hlen : s.length = 128) :
    extractText s =
      some (.status { state := .PH_DONE, progress := some 100, signature := some s }) := by
  have hne : s.isEmpty = false := by
    cases s with
    | nil => simp at hlen
    | cons c cs => rfl
  have hsd : safeDecode idDecode (some s) = s := rfl
  have h1 : step1 noJson idDecode [textRec s] = none := by
    simp [step1, textRec]
  have h2 : step2 noJson idDecode [textRec s] = none := by
    simp [step2, textRec, hsd, hne, isJsonStart_hex h]
  have h3 : step3 idDecode [textRec s] =
      some (backfill { state := .PH_DONE, signature := some s, progress := some 100 }) := by
    simp [step3, textRec, hsd, parse_hex128 h hlen]
  have h4 : backfill { state := .PH_DONE, signature := some s, progress := some 100 } =
      { state := .PH_DONE, signature := some s, progress := some 100 } := rfl
  rw [extractText, tryParseFromEvent, h1, h2, h3, h4]

theorem extractText_hex64 {s : List Nat} (h : ∀ c ∈ s, isHexC c = true)
    (hlen : s.length = 64) :
    extractText s = some (.status { state := .PH_IDLE, pubkey := some s }) := by
  have hne : s.isEmpty = false := by
    cases s with
    | nil => simp at hlen
    | cons c cs => rfl
  have hsd : safeDecode idDecode (some s) = s := rfl
  have h1 : step1 noJson idDecode [textRec s] = none := by
    simp [step1, textRec]
  have h2 : step2 noJson idDecode [textRec s] = none := by
    simp [step2, textRec, hsd, hne, isJsonStart_hex h]
  have h3 : step3 idDecode [textRec s] =
      some (backfill { state := .PH_IDLE, pubkey := some s }) := by
    simp [step3, textRec, hsd, parse_hex64 h hlen]
  have h4 : backfill { state := .PH_IDLE, pubkey := some s } =
      { state := .PH_IDLE, pubkey := some s } := rfl
  rw [extractText, tryParseFromEvent, h1, h2, h3, h4]

set_option maxRecDepth 40000

/-- Evaluation of the decoder pipeline on the canonical work frame with 128
steps remaining. -/
theorem extract_ri128 : extractText (codes ("R:i=128")) =
    some
      (.status
        { state := .PH_R_WORK, stepsRemaining := some 128, progress := some 52, stepsTotal := some 255 }) := by
  have hp : parseEdSignTextStatus (codes ("R:i=128")) =
      some { state := .PH_R_WORK, stepsRemaining := some 128 } := by decide
  have h1 : step1 noJson idDecode [textRec (codes ("R:i=128"))] = none := by decide
  have h2 : step2 noJson idDecode [textRec (codes ("R:i=128"))] = none := by decide
  have h3 : step3 idDecode [textRec (codes ("R:i=128"))] =
      some (backfill { state := .PH_R_WORK, stepsRemaining := some 128 }) := by
    simp [step3, textRec,
      (show safeDecode idDecode (some (codes ("R:i=128"))) = codes ("R:i=128") from rfl), hp]
  have hb : backfill { state := .PH_R_WORK, stepsRemaining := some 128 } =
      { state := .PH_R_WORK, stepsRemaining := some 128, progress := some 52, stepsTotal := some 255 } := by
    simp [backfill, pfr_at_128]
  rw [extractText, tryParseFromEvent, h1, h2, h3, hb]

/-- Claim C6: the decoder pipeline maps the specification's example frames
as stated: the init frame to the init state at progress 10; the work frame
with 128 steps remaining to the work state at progress 52, within the allowed
pair 52 or 53, with total 255; every 128-hex frame to the done state at
progress 100 carrying that signature; every 64-hex frame to the idle state
carrying that public key; the busy frame to the busy state; and the garbage
frame to no match. -/
theorem c6_decoder_examples :
    (extractText (codes ("PH_INIT_K")) =
        some (.status { state := .PH_INIT_K, progress := some 10 }))
    ∧ (∃ p : Int, (p = 52 ∨ p = 53) ∧ extractText (codes ("R:i=128")) =
        some
          (.status
            { state := .PH_R_WORK, stepsRemaining := some 128, progress := some p, stepsTotal := some 255 }))
    ∧ (∀ s : List Nat, s.length = 128 → (∀ c ∈ s, isHexC c = true) →
        extractText s =
          some
            (.status { state := .PH_DONE, progress := some 100, signature := some s }))
    ∧ (∀ s : List Nat, s.length = 64 → (∀ c ∈ s, isHexC c = true) →
        extractText s = some (.status { state := .PH_IDLE, pubkey := some s }))
    ∧ (extractText (codes ("busy")) = some (.status { state := .BUSY }))
    ∧ parseEdSignTextStatus (codes ("xyz garbage")) = none := by
  refine ⟨by decide, ⟨52, Or.inl rfl, extract_ri128⟩,
    fun s h1 h2 => extractText_hex128 h2 h1,
    fun s h1 h2 => extractText_hex64 h2 h1, by decide, by decide⟩

/-- Witness for claim C6 at concrete 128-hex and 64-hex frames. -/
theorem c6_decoder_examples_witness :
    extractText (List.replicate 128 97) =
      some
        (.status
          { state := .PH_DONE, progress := some 100, signature := some (List.replicate 128 97) })
    ∧ extractText (List.replicate 64 102) =
      some (.status { state := .PH_IDLE, pubkey := some (List.replicate 64 102) }) :=
  ⟨c6_decoder_examples.2.2.1 (List.replicate 128 97) (by simp) (by decide),
   c6_decoder_examples.2.2.2.1 (List.replicate 64 102) (by simp) (by decide)⟩

/-- Claim C1 evaluated at the failing input: the decoder maps the R-done
frame to the work state with no step info and no progress, because the
R-prefix fallback precedes the R-done rule and shadows it, although the
R-done matcher itself accepts the text. -/
theorem c1_rdone_frame :
    extractText (codes ("R:done")) = some (.status { state := .PH_R_WORK })
    ∧ rdoneTest (codes ("R:done")) = true :=
  ⟨by decide, by decide⟩

theorem parse_nil : parseEdSignTextStatus [] = none := by decide

theorem step1_skip {J : Type} (jp : List Nat → Option J) (dec : List Nat → Option (List Nat))
    (r : NdefRecord) (rs : List NdefRecord) (hd : safeDecode dec r.data = []) :
    step1 jp dec (r :: rs) = step1 jp dec rs := by
  simp [step1, hd]

theorem step2_skip {J : Type} (jp : List Nat → Option J) (dec : List Nat → Option (List Nat))
    (r : NdefRecord) (rs : List NdefRecord) (hd : safeDecode dec r.data = []) :
    step2 jp dec (r :: rs) = step2 jp dec rs := by
  simp [step2, hd]

theorem step3_skip (dec : List Nat → Option (List Nat))
    (r : NdefRecord) (rs : List NdefRecord) (hd : safeDecode dec r.data = []) :
    step3 dec (r :: rs) = step3 dec rs := by
  rcases hrt : (r.recordType == ("text")) with _ | _ <;>
    simp [step3, hrt, hd, parse_nil]

theorem collectTexts_skip (dec : List Nat → Option (List Nat))
    (r : NdefRecord) (rs : List NdefRecord) (hd : safeDecode dec r.data = []) :
    collectTexts dec (r :: rs) = collectTexts dec rs := by
  rcases hrt : (r.recordType == ("text")) with _ | _ <;>
    simp [collectTexts, hrt, hd]

theorem tryParse_skip {J : Type} (jp : List Nat → Option J) (dec : List Nat → Option (List Nat))
    (r : NdefRecord) (rs : List NdefRecord) (hd : safeDecode dec r.data = []) :
    tryParseFromEvent jp dec (r :: rs) = tryParseFromEvent jp dec rs := by
  rw [tryParseFromEvent, tryParseFromEvent, step1_skip jp dec r rs hd,
    step2_skip jp dec r rs hd, step3_skip dec r rs hd, step4, step4,
    collectTexts_skip dec r rs hd]

theorem tryParse_none {J : Type} (jp : List Nat → Option J) (dec : List Nat → Option (List Nat))
    (records : List NdefRecord) (h : ∀ r ∈ records, safeDecode dec r.data = []) :
    tryParseFromEvent jp dec records = none := by
  induction records with
  | nil => rfl
  | cons r rs ih =>
    rw [tryParse_skip jp dec r rs (h r (List.mem_cons_self r rs))]
    exact ih (fun x hx => h x (List.mem_cons_of_mem r hx))

/-- Claim C9, amended: a record whose payload is absent or fails to decode is
treated as empty text and extraction continues with the remaining records; and
when every record decodes to empty the extractor returns no payload, without
raising an error (the embedding is a total function). -/
theorem c9_extractor_resilience :
    (∀ (J : Type) (jp : List Nat → Option J) (dec : List Nat → Option (List Nat))
        (r : NdefRecord) (rs : List NdefRecord), safeDecode dec r.data = [] →
        tryParseFromEvent jp dec (r :: rs) = tryParseFromEvent jp dec rs)
    ∧ (∀ (J : Type) (jp : List Nat → Option J) (dec : List Nat → Option (List Nat))
        (records : List NdefRecord), (∀ r ∈ records, safeDecode dec r.data = []) →
        tryParseFromEvent jp dec records = none) :=
  ⟨fun _ jp dec r rs hd => tryParse_skip jp dec r rs hd,
   fun _ jp dec records h => tryParse_none jp dec records h⟩

/-- Witness for claim C9 at a record with an undecodable payload. -/
theorem c9_extractor_resilience_witness :
    tryParseFromEvent noJson failDecode
        [{ recordType := ("text"), data := some [0] }, textRec (codes ("busy"))] =
      tryParseFromEvent noJson failDecode [textRec (codes ("busy"))]
    ∧ tryParseFromEvent noJson failDecode [{ recordType := ("text"), data := some [0] }] = none :=
  ⟨c9_extractor_resilience.1 Unit noJson failDecode
      { recordType := ("text"), data := some [0] } [textRec (codes ("busy"))] (by decide),
   c9_extractor_resilience.2 Unit noJson failDecode
      [{ recordType := ("text"), data := some [0] }] (by decide)⟩

/-- Counterexample to claim C9 as stated: a single text record reading xyz
garbage yields no structured data, no status and no labelled field, yet the
extractor returns a raw-text payload rather than no payload. -/
theorem c9_counterexample :
    parseEdSignTextStatus (codes ("xyz garbage")) = none
    ∧ pubkeySearch (codes ("xyz garbage")) = none
    ∧ uidSearch (codes ("xyz garbage")) = none
    ∧ extractText (codes ("xyz garbage")) =
        some (.raw (codes ("xyz garbage")) none none) :=
  ⟨by decide, by decide, by decide, by decide⟩

/-- Counterexample to claim C2 as stated: in a scan session, a second read
repeating the same busy payload at time 9 leaves lastUpdateTs at 5, so the
timestamp does not advance on every read and no second timestamp exists. -/
theorem c2_lastupdate_counterexample :
    ((onReadingEvent noJson idDecode
        ((onReadingEvent noJson idDecode (startScan initialSession {} 0) 5
          [textRec (codes ("busy"))]).1)
        9 [textRec (codes ("busy"))]).1.lastUpdateTs = 5)
    ∧ ((5 : Int) ≠ 9) :=
  ⟨by decide, by decide⟩

/-- Claim C2, amended: the hook keeps a single timestamp, updated by the
emitter exactly when the emitted payload differs from the stored
serialization; a read repeating the previous payload leaves it unchanged. -/
theorem c2_lastupdate_amended {J : Type} [DecidableEq J] (jp : List Nat → Option J)
    (dec : List Nat → Option (List Nat)) (s : SessionState J) (now : Int)
    (records : List NdefRecord) :
    ((onReadingEvent jp dec s now records).2 = true →
      (onReadingEvent jp dec s now records).1.lastUpdateTs = now)
    ∧ ((onReadingEvent jp dec s now records).2 = false →
      (onReadingEvent jp dec s now records).1.lastUpdateTs = s.lastUpdateTs) := by
  rw [onReadingEvent]
  cases htp : tryParseFromEvent jp dec records with
  | none => simp
  | some p =>
    simp only [emitIfChanged]
    by_cases heq : some p = s.lastPayload
    · simp [heq]
    · simp [heq]

/-- Witness for claim C2 at a first read of a fresh session. -/
theorem c2_lastupdate_amended_witness :
    (onReadingEvent noJson idDecode (startScan initialSession {} 0) 5
      [textRec (codes ("busy"))]).1.lastUpdateTs = 5 :=
  (c2_lastupdate_amended noJson idDecode (startScan initialSession {} 0) 5
    [textRec (codes ("busy"))]).1 (by decide)

/-- Counterexample to claim C3 as stated: from an idle loop, a tick taking
the deep-reset path while a previous deep reset is still in flight starts a
second operation, so two operations are in flight at once. -/
theorem c3_guard_counterexample :
    ¬ ((pollTickBegin (pollTickBegin { restarting := false, inFlight := 0 } true false)
        true false).inFlight ≤ 1) := by decide

/-- Claim C3, amended: only the light-rescan path is guarded, so a tick
taking it while the restarting flag is held is dropped; the deep-reset path
consults no guard and always starts another operation. -/
theorem c3_guard_amended (g : ScanCtl) (dueDeep stale : Bool) :
    (dueDeep = false → stale = false → g.restarting = true →
      pollTickBegin g dueDeep stale = g)
    ∧ ((dueDeep || stale) = true →
      (pollTickBegin g dueDeep stale).inFlight = g.inFlight + 1) := by
  constructor
  · intro hd hs hr
    subst hd; subst hs
    simp [pollTickBegin, rescanBegin, hr]
  · intro h
    simp [pollTickBegin, h, deepResetBegin]

/-- Witness for claim C3 at a held guard and at an in-flight deep reset. -/
theorem c3_guard_amended_witness :
    pollTickBegin { restarting := true, inFlight := 1 } false false =
      { restarting := true, inFlight := 1 }
    ∧ (pollTickBegin { restarting := false, inFlight := 1 } true false).inFlight = 2 :=
  ⟨(c3_guard_amended { restarting := true, inFlight := 1 } false false).1 rfl rfl rfl,
   (c3_guard_amended { restarting := false, inFlight := 1 } true false).2 rfl⟩

/-- Claim C7: when no status-changing read has occurred for at least the
staleness window, the next poll tick performs a deep reset, restarting the
scan and stamping the deep-reset timestamp, with no assumption on the
deep-reset period having elapsed. -/
theorem c7_stale_deep_reset {J : Type} (s : SessionState J) (now endTs : Int)
    (hstale : (s.staleAfter : Int) ≤ now - s.lastUpdateTs) :
    tickAction s now = .deepReset
    ∧ (applyTick s now endTs).lastDeepResetTs = endTs
    ∧ (applyTick s now endTs).controllerGen = s.controllerGen + 1
    ∧ (applyTick s now endTs).currentAborted = false := by
  have ha : tickAction s now = .deepReset := by
    rw [tickAction, if_pos (Or.inr hstale)]
  refine ⟨ha, ?_, ?_, ?_⟩ <;> (rw [applyTick, ha]; try rfl)

/-- Witness for claim C7 at a stale session whose deep-reset period has not
elapsed. -/
theorem c7_stale_deep_reset_witness :
    tickAction staleExample 6000 = .deepReset
    ∧ (applyTick staleExample 6000 6100).lastDeepResetTs = 6100
    ∧ ((6000 : Int) - staleExample.lastDeepResetTs < (staleExample.deepEvery : Int)) :=
  ⟨(c7_stale_deep_reset staleExample 6000 6100 (by decide)).1,
   (c7_stale_deep_reset staleExample 6000 6100 (by decide)).2.1, by decide⟩

/-- Claim C8: startSingleRead disables automatic rescans and interval
polling, arms a timeout of the requested delay with 3000 as the default,
firing the timeout on an unchanged controller aborts the scan, the returned
disposer cancels the timeout early, and the application failsafe reports the
timed-out failure. -/
theorem c8_single_read (J : Type) (s : SessionState J) (timeoutMs : Nat) :
    ((startSingleRead s timeoutMs).1.suppressRescan = true)
    ∧ ((startSingleRead s timeoutMs).1.pollingActive = false)
    ∧ ((startSingleRead s timeoutMs).1.lastPayload = none)
    ∧ ((startSingleRead s timeoutMs).2.delayMs = timeoutMs)
    ∧ (startSingleRead s = startSingleRead s 3000)
    ∧ (fireSingleTimeout (startSingleRead s timeoutMs).1 (startSingleRead s timeoutMs).2
        = { (startSingleRead s timeoutMs).1 with currentAborted := true })
    ∧ (fireSingleTimeout (startSingleRead s timeoutMs).1
        (disposeSingleTimeout (startSingleRead s timeoutMs).2) = (startSingleRead s timeoutMs).1)
    ∧ failsafeFire { isGettingDeviceInfo := true, isScanning := true, errorMsg := none }
        = { isGettingDeviceInfo := false, isScanning := false,
            errorMsg := some ("Timed out reading device info") } := by
  refine ⟨rfl, rfl, rfl, rfl, rfl, ?_, ?_, rfl⟩
  · rw [fireSingleTimeout, if_pos]
    exact ⟨rfl, rfl⟩
  · rw [fireSingleTimeout, if_neg]
    intro hcon
    simp [disposeSingleTimeout, startSingleRead] at hcon


/-- Claim C10: both startScan and startSingleRead clear the stored payload
serialization and the record-shape hash, so the first successfully parsed
read of a new session always fires the consumer callback, whatever the
previous session last emitted. -/
theorem c10_session_reset {J : Type} [DecidableEq J] (jp : List Nat → Option J)
    (dec : List Nat → Option (List Nat)) (s : SessionState J) (opts : StartOptions)
    (now now2 : Int) (timeoutMs : Nat) (records : List NdefRecord) (p : Payload J)
    (hp : tryParseFromEvent jp dec records = some p) :
    ((startScan s opts now).lastPayload = none
      ∧ (startScan s opts now).lastHash = none
      ∧ (onReadingEvent jp dec (startScan s opts now) now2 records).2 = true)
    ∧ ((startSingleRead s timeoutMs).1.lastPayload = none
      ∧ (startSingleRead s timeoutMs).1.lastHash = none
      ∧ (onReadingEvent jp dec (startSingleRead s timeoutMs).1 now2 records).2 = true) := by
  refine ⟨⟨rfl, rfl, ?_⟩, ⟨rfl, rfl, ?_⟩⟩ <;>
    simp [onReadingEvent, hp, emitIfChanged, startScan, startSingleRead, doScan]

/-- Witness for claim C10 at a session whose previous emission is identical
to the new session's first read. -/
theorem c10_session_reset_witness :
    ((startScan repeatState {} 0).lastPayload = none
      ∧ (startScan repeatState {} 0).lastHash = none
      ∧ (onReadingEvent noJson idDecode (startScan repeatState {} 0) 5
          [textRec (codes ("busy"))]).2 = true)
    ∧ ((startSingleRead repeatState).1.lastPayload = none
      ∧ (startSingleRead repeatState).1.lastHash = none
      ∧ (onReadingEvent noJson idDecode (startSingleRead repeatState).1 5
          [textRec (codes ("busy"))]).2 = true) :=
  c10_session_reset noJson idDecode repeatState {} 0 5 3000 [textRec (codes ("busy"))]
    (.status { state := .BUSY }) (by decide)

/-- Driver lemma for the supervisor: with the always-computing environment,
any run started below the cycle bound with enough fuel ends with exactly the
bound many cycles, a stopped loop, and the timeout failure. -/
theorem runCycles_computing (fuel : Nat) :
    ∀ (c k : Nat), c ≤ 100 → 101 - c ≤ fuel →
    runCycles computingEnv fuel k ⟨c, true, none⟩
      = some ⟨100, false, some ("Computation timeout")⟩ := by
  induction fuel with
  | zero => intro c k hc hf; omega
  | succ n ih =>
    intro c k hc hf
    rw [runCycles]
    by_cases h100 : 100 ≤ c
    · have hceq : c = 100 := le_antisymm hc h100
      subst hceq
      simp [computingEnv, doCycle, maxCycles, stopPowerCycling]
    · have hlt : ¬ (maxCycles ≤ c) := by rw [maxCycles]; omega
      have hstep : doCycle false ⟨c, true, none⟩ = (⟨c + 1, true, none⟩, true) := by
        rw [doCycle, if_neg hlt]
        rfl
      simp only [computingEnv, Bool.true_eq_false, Bool.false_eq_true, if_false, if_true,
        reduceIte, hstep]
      exact ih (c + 1) (k + 1) (by omega) (by omega)

/-- Claim C5: in every run whose external status never leaves computing,
with no cancellation and completing cycle bodies, the supervisor executes
exactly maxCycles cycles and then stops, reporting the computation-timeout
failure; the run ends by itself, never starting another cycle. -/
theorem c5_power_cycle_bound (env : Nat → CycleEnv)
    (henv : ∀ n,
      env n = ⟨true, true, false, false⟩)
    (fuel : Nat) (hf : 101 ≤ fuel) (k : Nat) :
    runCycles env fuel k initialSupState =
      some ⟨maxCycles, false, some ("Computation timeout")⟩ := by
  have he : env = computingEnv := funext henv
  subst he
  have h := runCycles_computing fuel 0 k (by omega) (by omega)
  rw [initialSupState, maxCycles]
  exact h

/-- Witness for claim C5 at the always-computing environment with fuel for
exactly the bound plus the stopping iteration. -/
theorem c5_power_cycle_bound_witness :
    runCycles computingEnv 101 0 initialSupState =
      some ⟨maxCycles, false, some ("Computation timeout")⟩ :=
  c5_power_cycle_bound computingEnv (fun _ => rfl) 101 (by norm_num) 0
